import Mathlib

/-!
Verification development for the persistence core of a Slack bot
(`PersistenceManager` and the key-construction helpers of its producers).
The definitions below are a shallow embedding of the TypeScript source:
JavaScript objects used as string-keyed maps become association lists,
`null`/`undefined` property values become `Option.none`, and the
asynchronous flush machinery becomes explicit state passing on a
`Manager` record.
-/
set_option autoImplicit false

/-- A JavaScript object used as a string-keyed map, embedded as an
association list in property-insertion order (the order `Object.entries`
iterates). Maps built by the program have unique keys. -/
abbrev JMap (α : Type) := List (String × α)

/-- Property read `m[k]` (first entry with the key, if any). -/
def jmLookup {α : Type} (m : JMap α) (k : String) : Option α :=
  (m.find? (fun kv => kv.1 == k)).map (fun kv => kv.2)

/-- Property deletion `delete m[k]`. -/
def jmErase {α : Type} (m : JMap α) (k : String) : JMap α :=
  m.filter (fun kv => kv.1 != k)

/-- Whether the object has the key (`k in m`). -/
def jmHasKey {α : Type} (m : JMap α) (k : String) : Bool :=
  m.any (fun kv => kv.1 == k)

/-- Property assignment `m[k] = v`: an existing key keeps its position
and gets the new value, a new key is appended at the end. -/
def jmInsert {α : Type} (m : JMap α) (k : String) (v : α) : JMap α :=
  if jmHasKey m k then
    m.map (fun kv => if kv.1 == k then (k, v) else kv)
  else
    m ++ [(k, v)]

/-- `SerializedWorkingDirectoryConfig` from permission-mcp-server.ts. -/
structure SerializedWorkingDirectoryConfig where
  channelId : String
  threadTs : Option String
  userId : Option String
  directory : String
  setAt : String
  deriving Repr, DecidableEq

/-- `SerializedConversationSession` from permission-mcp-server.ts.
`lastActivity` is the ISO date string stored in the file. -/
structure SerializedConversationSession where
  userId : String
  channelId : String
  threadTs : Option String
  sessionId : Option String
  isActive : Bool
  lastActivity : String
  deriving Repr, DecidableEq

/-- A category map of a snapshot (or of a merge result). Values are
`Option`s because a JavaScript object property can hold `null`/`undefined`
(`removeWorkingDirectory` schedules `{ [key]: null }`); `none` models such
a value, `some r` a real record. -/
abbrev CategoryMap (α : Type) := JMap (Option α)

/-- One category of a `StateUpdate` fragment. `replaceAll` models the
presence of the reserved `__REPLACE_ALL__` key (its only producer,
`cleanupOldSessions`, always stores `true` there, a truthy value);
`entries` are the fragment's remaining entries, with `none` modelling a
`null`/`undefined` value (a deletion request). -/
structure CategoryUpdate (α : Type) where
  replaceAll : Bool
  entries : JMap (Option α)
  deriving Repr, DecidableEq

/-- `BotState` from permission-mcp-server.ts: the persisted snapshot. -/
structure BotState where
  version : String
  lastUpdated : String
  workingDirectories : CategoryMap SerializedWorkingDirectoryConfig
  sessions : CategoryMap SerializedConversationSession
  deriving Repr, DecidableEq

/-- `StateUpdate` from permission-mcp-server.ts: a fragment. A category
set to `none` models an absent (or falsy) property, which `mergeUpdates`
skips entirely. -/
structure StateUpdate where
  workingDirectories : Option (CategoryUpdate SerializedWorkingDirectoryConfig) := none
  sessions : Option (CategoryUpdate SerializedConversationSession) := none
  deriving Repr, DecidableEq

/-- One iteration of the non-replace-all branch of `mergeUpdates`: a
`null`/`undefined` value deletes the key, a present value overwrites or
creates it. -/
def mergeStep {α : Type} (acc : CategoryMap α) (kv : String × Option α) : CategoryMap α :=
  match kv.2 with
  | none => jmErase acc kv.1
  | some c => jmInsert acc kv.1 (some c)

/-- The non-replace-all branch of `mergeUpdates` for one category: the
fragment entries are applied in order. -/
def mergeEntries {α : Type} (base : CategoryMap α) (entries : JMap (Option α)) :
    CategoryMap α :=
  entries.foldl mergeStep base

/-- `PersistenceManager.mergeUpdates` applied to one fragment.
For `workingDirectories` the replace-all branch fires when the fragment's
map is empty (`Object.keys(...).length === 0`) or carries the reserved
marker; for `sessions` only the marker fires it. The replace-all branch
adopts exactly the fragment's non-marker entries. -/
def applyUpdate (state : BotState) (update : StateUpdate) : BotState :=
  let afterWd :=
    match update.workingDirectories with
    | none => state
    | some u =>
      if u.entries.isEmpty || u.replaceAll then
        { state with workingDirectories := u.entries }
      else
        { state with workingDirectories := mergeEntries state.workingDirectories u.entries }
  match update.sessions with
  | none => afterWd
  | some u =>
    if u.replaceAll then
      { afterWd with sessions := u.entries }
    else
      { afterWd with sessions := mergeEntries afterWd.sessions u.entries }

/-- `PersistenceManager.mergeUpdates`: fold the pending fragments onto the
base snapshot, strictly in schedule order. -/
def mergeUpdates (currentState : BotState) (updates : List StateUpdate) : BotState :=
  updates.foldl applyUpdate currentState

/-- `PersistenceManager.getEmptyState` (its `lastUpdated` is the current
time, passed in as `nowIso`). -/
def getEmptyState (nowIso : String) : BotState :=
  { version := "1.0.0", lastUpdated := nowIso, workingDirectories := [], sessions := [] }

/-- The last binding of key `k` in a fragment entry list (for maps with
unique keys, the key's one binding): `some v` when the key is named with
value `v`, `none` when the key is not named at all. -/
def lastBind {α : Type} (entries : JMap (Option α)) (k : String) : Option (Option α) :=
  (entries.reverse.find? (fun kv => kv.1 == k)).map (fun kv => kv.2)

/-- Specification of one category's pointwise merge result: a key bound
(last) to a present value is overwritten/created, a key bound to an
empty value is deleted, an unnamed key keeps the base's value. -/
def mergeLookupSpec {α : Type} (entries : JMap (Option α)) (k : String)
    (baseVal : Option (Option α)) : Option (Option α) :=
  match lastBind entries k with
  | some (some v) => some (some v)
  | some none => none
  | none => baseVal

/-- JavaScript truthiness of an optional string parameter: `undefined`
and the empty string are falsy. -/
def strTruthy : Option String → Bool
  | none => false
  | some s => s != ""

/-- `channelId.startsWith('D')`: for the one-character prefix used in
the source this is exactly a check of the first character. -/
def startsWithD (s : String) : Bool :=
  s.data.head? == some 'D'

/-- `WorkingDirectoryManager.getConfigKey`: thread key when a (truthy)
`threadTs` is given, a DM key when a (truthy) `userId` is given and the
channel id starts with `D`, the channel id alone otherwise. -/
def getConfigKey (channelId : String) (threadTs userId : Option String) : String :=
  if strTruthy threadTs then channelId ++ "-" ++ threadTs.getD ""
  else if strTruthy userId && startsWithD channelId then channelId ++ "-" ++ userId.getD ""
  else channelId

/-- `ClaudeHandler.getSessionKey`: `userId-channelId-threadTs`, with the
literal `direct` when `threadTs` is absent or falsy. -/
def getSessionKey (userId channelId : String) (threadTs : Option String) : String :=
  userId ++ "-" ++ channelId ++ "-" ++ (if strTruthy threadTs then threadTs.getD "" else "direct")

/-- `PersistenceManager.cleanupOldSessions`. `getTime` models
`s => new Date(s).getTime()` (epoch milliseconds of an ISO date string),
`now` models `Date.now()`; the loop runs over `Object.entries` of the
loaded snapshot's session records, passed in as `sessionEntries`. A kept
session satisfies `now - lastActivity < maxAge`; the others are counted
as removed. When anything was removed, the scheduled fragment is the kept
sessions together with the reserved replace-all marker; otherwise nothing
is scheduled at all. -/
def cleanupOldSessions (getTime : String → Int) (now maxAge : Int)
    (sessionEntries : List (String × SerializedConversationSession)) : Option StateUpdate :=
  let cleaned := sessionEntries.filter
    (fun kv => decide (now - getTime kv.2.lastActivity < maxAge))
  let removedCount := (sessionEntries.filter
    (fun kv => ! decide (now - getTime kv.2.lastActivity < maxAge))).length
  if 0 < removedCount then
    some { workingDirectories := none,
           sessions := some ⟨true, cleaned.map (fun kv => (kv.1, some kv.2))⟩ }
  else
    none

/-- Which step of the atomic write protocol of `performSave` fails, if
any: the `writeFileSync` to the temp file, the `copyFileSync` of the
primary onto the backup, or the `renameSync` of the temp file onto the
primary. -/
inductive WriteOutcome where
  | ok
  | tempFail
  | backupFail
  | renameFail
  deriving Repr, DecidableEq

/-- The three on-disk files of the persistence manager. Only runs in
which every existing file is a well-formed serialized snapshot are
modelled here (`performSave` writes nothing else); the raw-JSON loader
model below covers malformed file contents. `none` means the file does
not exist. -/
structure DiskFS where
  primary : Option BotState
  backup : Option BotState
  temp : Option BotState
  deriving Repr, DecidableEq

/-- The mutable state of a `PersistenceManager` together with its disk,
plus an observation counter of the writes made to the primary path
(`copyFileSync` onto it and `renameSync` onto it). -/
structure Manager where
  fs : DiskFS
  pendingUpdates : List StateUpdate
  primaryWrites : Nat
  deriving Repr, DecidableEq

/-- `PersistenceManager.loadState` on a well-formed disk: the primary
snapshot when the primary file exists; otherwise the backup, which is
then promoted onto the primary path (one primary write); otherwise a
fresh empty state. -/
def loadState (nowIso : String) (m : Manager) : BotState × Manager :=
  match m.fs.primary with
  | some s => (s, m)
  | none =>
    match m.fs.backup with
    | some b =>
      (b, { m with fs := { m.fs with primary := some b },
                   primaryWrites := m.primaryWrites + 1 })
    | none => (getEmptyState nowIso, m)

/-- `PersistenceManager.performSave`: load the current state from disk,
merge every pending fragment onto it, clear the pending list, stamp
`lastUpdated` with the current time `ts`, then run the write protocol
(temp write, backup copy, atomic rename), stopping at the failing step.
All errors are caught: the function always returns a manager state. -/
def performSave (nowIso ts : String) (outcome : WriteOutcome) (m0 : Manager) : Manager :=
  let loaded := loadState nowIso m0
  let merged0 := mergeUpdates loaded.1 loaded.2.pendingUpdates
  let m := { loaded.2 with pendingUpdates := [] }
  let merged := { merged0 with lastUpdated := ts }
  match outcome with
  | .tempFail => m
  | .backupFail => { m with fs := { m.fs with temp := some merged } }
  | .renameFail =>
    { m with fs := { m.fs with
        temp := some merged,
        backup := if m.fs.primary.isSome then m.fs.primary else m.fs.backup } }
  | .ok =>
    { m with
      fs := { primary := some merged,
              backup := if m.fs.primary.isSome then m.fs.primary else m.fs.backup,
              temp := none },
      primaryWrites := m.primaryWrites + 1 }

/-- `PersistenceManager.flushPendingUpdates`: returns immediately when no
fragment is pending, otherwise performs the save. -/
def flushPendingUpdates (nowIso ts : String) (outcome : WriteOutcome) (m : Manager) : Manager :=
  if m.pendingUpdates.isEmpty then m else performSave nowIso ts outcome m

/-- `PersistenceManager.scheduleAutoSave`: append the fragment to the
pending list (and re-arm the debounce timer, which in this sequential
model is represented by when `flushPendingUpdates` is invoked). -/
def scheduleAutoSave (m : Manager) (update : StateUpdate) : Manager :=
  { m with pendingUpdates := m.pendingUpdates ++ [update] }

/-- `PersistenceManager.forceSave`: optionally append one more fragment,
cancel the timer, and flush immediately. -/
def forceSave (nowIso ts : String) (outcome : WriteOutcome)
    (update : Option StateUpdate) (m : Manager) : Manager :=
  flushPendingUpdates nowIso ts outcome
    (match update with
     | some u => scheduleAutoSave m u
     | none => m)

/-- One debounce cycle: some fragments are scheduled, then the timer
fires (or a forced flush runs) with the given write outcome and
timestamp. -/
structure FlushCycle where
  fragments : List StateUpdate
  outcome : WriteOutcome
  ts : String
  deriving Repr, DecidableEq

def runCycle (nowIso : String) (m : Manager) (c : FlushCycle) : Manager :=
  flushPendingUpdates nowIso c.ts c.outcome (c.fragments.foldl scheduleAutoSave m)

def runCycles (nowIso : String) (m : Manager) (cs : List FlushCycle) : Manager :=
  cs.foldl (runCycle nowIso) m

/-- The fragments of the cycles whose disk write succeeded, in schedule
order. -/
def goodFragments (cs : List FlushCycle) : List StateUpdate :=
  cs.flatMap (fun c => if c.outcome = WriteOutcome.ok then c.fragments else [])

/-- A parsed JSON value argument (the possible results of `JSON.parse`). -/
inductive JValue where
  | null
  | bool (b : Bool)
  | num (n : Int)
  | str (s : String)
  | arr (elems : List JValue)
  | obj (fields : List (String × JValue))
  deriving Repr

/-- JavaScript truthiness of a parsed JSON value. -/
def jsTruthy : JValue → Bool
  | .null => false
  | .bool b => b
  | .num n => n != 0
  | .str s => s != ""
  | .arr _ => true
  | .obj _ => true

/-- Whether `typeof v === 'object'` holds (true for objects, arrays and
`null`). -/
def typeofIsObject : JValue → Bool
  | .null => true
  | .obj _ => true
  | .arr _ => true
  | _ => false

/-- Property read on a parsed JSON value; `none` models `undefined`. -/
def getField : JValue → String → Option JValue
  | .obj fields, k => (fields.find? (fun kv => kv.1 == k)).map (fun kv => kv.2)
  | _, _ => none

/-- `v[k] || dflt`: the property when present and truthy, the default
otherwise. -/
def fieldOr (v : JValue) (k : String) (dflt : JValue) : JValue :=
  match getField v k with
  | some f => if jsTruthy f then f else dflt
  | none => dflt

/-- The snapshot assembled by `loadAndValidateFile`, at the raw-JSON
level: the code copies the parsed fields verbatim (with `||` defaults)
and only checks that the two category maps have `typeof === 'object'`,
so the fields can still be arbitrary JSON values. -/
structure LoadedState where
  version : JValue
  lastUpdated : JValue
  workingDirectories : JValue
  sessions : JValue
  deriving Repr

/-- `PersistenceManager.loadAndValidateFile`. The argument is the file's
content as a parse result: `none` models a file whose text makes
`JSON.parse` throw (e.g. the literal text `not json`), `some parsed` a
file parsing to `parsed`. Returns `none` exactly when the function in the
source returns `null` (any thrown error is caught there). `nowIso` is the
current time used for the `lastUpdated` default. -/
def loadAndValidateFile (nowIso : String) (content : Option JValue) : Option LoadedState :=
  match content with
  | none => none
  | some parsed =>
    if !(jsTruthy parsed) || !(typeofIsObject parsed) then none
    else
      let wd := fieldOr parsed "workingDirectories" (JValue.obj [])
      let ss := fieldOr parsed "sessions" (JValue.obj [])
      if !(typeofIsObject wd) || !(typeofIsObject ss) then none
      else
        some { version := fieldOr parsed "version" (JValue.str "1.0.0"),
               lastUpdated := fieldOr parsed "lastUpdated" (JValue.str nowIso),
               workingDirectories := wd,
               sessions := ss }

/-- The primary and backup files, as parse results (see
`loadAndValidateFile` for the encoding of the inner `Option`). -/
structure JFS where
  primary : Option (Option JValue)
  backup : Option (Option JValue)
  deriving Repr

/-- `getEmptyState` as seen at the raw-JSON level. -/
def emptyLoaded (nowIso : String) : LoadedState :=
  { version := JValue.str "1.0.0", lastUpdated := JValue.str nowIso,
    workingDirectories := JValue.obj [], sessions := JValue.obj [] }

/-- `PersistenceManager.loadState` at the raw-JSON level: try the primary
file; on failure try the backup and, when it validates, copy it onto the
primary path (self-healing promotion); otherwise return a fresh empty
state. Returns the loaded snapshot together with the resulting disk. -/
def loadStateJ (nowIso : String) (fs : JFS) : LoadedState × JFS :=
  let fromBackup : LoadedState × JFS :=
    match fs.backup with
    | some bc =>
      (match loadAndValidateFile nowIso bc with
       | some st => (st, { fs with primary := some bc })
       | none => (emptyLoaded nowIso, fs))
    | none => (emptyLoaded nowIso, fs)
  match fs.primary with
  | some c =>
    (match loadAndValidateFile nowIso c with
     | some st => (st, fs)
     | none => fromBackup)
  | none => fromBackup

theorem jmLookup_cons {α : Type} (kv : String × α) (m : JMap α) (k : String) :
    jmLookup (kv :: m) k = if kv.1 == k then some kv.2 else jmLookup m k := by
  by_cases h : kv.1 == k <;> simp [jmLookup, List.find?_cons, h]

theorem jmLookup_jmErase {α : Type} (m : JMap α) (k k' : String) :
    jmLookup (jmErase m k) k' = if k = k' then none else jmLookup m k' := by
  induction m with
  | nil => by_cases hk : k = k' <;> simp [jmErase, jmLookup, hk]
  | cons kv rest ih =>
    by_cases h : kv.1 = k
    · have hfil : jmErase (kv :: rest) k = jmErase rest k := by
        simp [jmErase, List.filter_cons, h]
      rw [hfil, ih]
      by_cases hk : k = k'
      · simp [hk]
      · have hne : (kv.1 == k') = false := by
          simp only [beq_eq_false_iff_ne, ne_eq, h]
          exact hk
        rw [jmLookup_cons, hne]
        simp
    · have hfil : jmErase (kv :: rest) k = kv :: jmErase rest k := by
        simp [jmErase, List.filter_cons, h]
      rw [hfil, jmLookup_cons, jmLookup_cons, ih]
      by_cases h2 : kv.1 = k'
      · have hk : ¬ (k = k') := fun e => h (by rw [e, h2])
        simp [h2, hk]
      · simp [h2]

theorem jmLookup_map_put_self {α : Type} (m : JMap α) (k : String) (v : α)
    (hmem : jmHasKey m k = true) :
    jmLookup (m.map (fun kv => if kv.1 == k then (k, v) else kv)) k = some v := by
  induction m with
  | nil => simp [jmHasKey] at hmem
  | cons kv rest ih =>
    by_cases h : kv.1 = k
    · simp [jmLookup_cons, h]
    · have hb : (kv.1 == k) = false := by simp [h]
      have hrest : jmHasKey rest k = true := by
        simpa [jmHasKey, List.any_cons, hb] using hmem
      simp only [List.map_cons, hb, Bool.false_eq_true, if_false, jmLookup_cons, hb]
      exact ih hrest

theorem jmLookup_map_put_ne {α : Type} (m : JMap α) (k k' : String) (v : α)
    (hk : ¬ k = k') :
    jmLookup (m.map (fun kv => if kv.1 == k then (k, v) else kv)) k' = jmLookup m k' := by
  induction m with
  | nil => rfl
  | cons kv rest ih =>
    by_cases h : kv.1 = k
    · have hb : (kv.1 == k) = true := by simp [h]
      have h1 : (k == k') = false := by simp [hk]
      have h2 : ¬ (kv.1 = k') := by rw [h]; exact hk
      simp only [List.map_cons, hb, if_true, jmLookup_cons, h1, Bool.false_eq_true, if_false]
      rw [if_neg (by simpa using h2)]
      exact ih
    · have hb : (kv.1 == k) = false := by simp [h]
      simp only [List.map_cons, hb, Bool.false_eq_true, if_false, jmLookup_cons]
      by_cases h2 : kv.1 = k'
      · simp [h2]
      · rw [if_neg (by simpa using h2), if_neg (by simpa using h2)]
        exact ih

theorem jmLookup_append_single {α : Type} (m : JMap α) (k k' : String) (v : α)
    (hmem : jmHasKey m k = false) :
    jmLookup (m ++ [(k, v)]) k' = if k = k' then some v else jmLookup m k' := by
  induction m with
  | nil => by_cases hk : k = k' <;> simp [jmLookup, List.find?_cons, hk]
  | cons kv rest ih =>
    have hcons : jmHasKey (kv :: rest) k = ((kv.1 == k) || jmHasKey rest k) := rfl
    rw [hcons] at hmem
    have hb : (kv.1 == k) = false := by
      cases hkv : (kv.1 == k) with
      | false => rfl
      | true => rw [hkv] at hmem; simp at hmem
    have hrest : jmHasKey rest k = false := by
      cases hr : jmHasKey rest k with
      | false => rfl
      | true => rw [hr] at hmem; simp at hmem
    rw [List.cons_append, jmLookup_cons, jmLookup_cons, ih hrest]
    by_cases h2 : kv.1 = k'
    · have hk : ¬ (k = k') := by
        intro e
        have : (kv.1 == k) = true := by simp [h2, e]
        rw [this] at hb
        exact absurd hb (by simp)
      simp [h2, hk]
    · simp [h2]

theorem jmLookup_jmInsert {α : Type} (m : JMap α) (k k' : String) (v : α) :
    jmLookup (jmInsert m k v) k' = if k = k' then some v else jmLookup m k' := by
  unfold jmInsert
  cases hmem : jmHasKey m k with
  | true =>
    simp only [if_true]
    by_cases hk : k = k'
    · rw [if_pos hk, ← hk, jmLookup_map_put_self m k v hmem]
    · rw [if_neg hk, jmLookup_map_put_ne m k k' v hk]
  | false =>
    simp only [Bool.false_eq_true, if_false]
    exact jmLookup_append_single m k k' v hmem

theorem lastBind_cons {α : Type} (kv : String × Option α) (rest : JMap (Option α))
    (k : String) :
    lastBind (kv :: rest) k =
      match lastBind rest k with
      | some x => some x
      | none => if kv.1 == k then some kv.2 else none := by
  simp only [lastBind, List.reverse_cons, List.find?_append]
  cases hfound : rest.reverse.find? (fun p => p.1 == k) with
  | none => by_cases h : kv.1 == k <;> simp [Option.orElse, List.find?_cons, h]
  | some x => simp [Option.orElse]

/-- Pointwise characterization of the non-replace-all branch: a key named
with a present value ends up overwritten/created, a key named with an
empty value ends up deleted, an unnamed key keeps its prior record. -/
theorem jmLookup_mergeEntries {α : Type} (base : CategoryMap α)
    (entries : JMap (Option α)) (k : String) :
    jmLookup (mergeEntries base entries) k =
      match lastBind entries k with
      | some (some v) => some (some v)
      | some none => none
      | none => jmLookup base k := by
  induction entries generalizing base with
  | nil => simp [mergeEntries, lastBind]
  | cons kv rest ih =>
    have step : mergeEntries base (kv :: rest) = mergeEntries (mergeStep base kv) rest := rfl
    rw [step, ih, lastBind_cons]
    cases hrest : lastBind rest k with
    | some x => cases x <;> rfl
    | none =>
      by_cases h : kv.1 == k
      · have e : kv.1 = k := by simpa [beq_iff_eq] using h
        cases hv : kv.2 with
        | none => simp [mergeStep, hv, h, jmLookup_jmErase, e]
        | some c => simp [mergeStep, hv, h, jmLookup_jmInsert, e]
      · have e : (kv.1 == k) = false := by simpa using h
        have ne : ¬ (kv.1 = k) := by simpa [beq_iff_eq] using h
        cases hv : kv.2 with
        | none => simp [mergeStep, hv, e, jmLookup_jmErase, ne]
        | some c => simp [mergeStep, hv, e, jmLookup_jmInsert, ne]

theorem jmLookup_mergeEntries_spec {α : Type} (base : CategoryMap α)
    (entries : JMap (Option α)) (k : String) :
    jmLookup (mergeEntries base entries) k = mergeLookupSpec entries k (jmLookup base k) := by
  rw [jmLookup_mergeEntries]
  cases h : lastBind entries k with
  | none => simp [mergeLookupSpec, h]
  | some x => cases x <;> simp [mergeLookupSpec, h]

theorem mergeUpdates_append (s : BotState) (l1 l2 : List StateUpdate) :
    mergeUpdates s (l1 ++ l2) = mergeUpdates (mergeUpdates s l1) l2 := by
  simp [mergeUpdates, List.foldl_append]

/-- C4: if the primary state file exists but fails to parse or validate
while the backup file exists and validates, then `loadState` returns the
backup's snapshot and, as a side effect, the primary file's contents are
replaced by a copy of the backup (self-healing promotion). -/
theorem loadState_backup_promotion (nowIso : String) (fs : JFS)
    (c bc : Option JValue) (bstate : LoadedState)
    (hp : fs.primary = some c) (hpv : loadAndValidateFile nowIso c = none)
    (hb : fs.backup = some bc) (hbv : loadAndValidateFile nowIso bc = some bstate) :
    loadStateJ nowIso fs = (bstate, { fs with primary := some bc }) := by
  simp [loadStateJ, hp, hpv, hb, hbv]

/-- Witness for C4: the primary holds the unparseable text `not json`
(modelled as a parse failure), the backup holds a snapshot whose session
records contain key `S1`; `loadState` returns the backup snapshot, `S1`
is present in it, and the primary now equals the backup. -/
theorem loadState_backup_promotion_wit :
    loadStateJ "T0"
        ⟨some none,
         some (some (JValue.obj [("workingDirectories", JValue.obj []),
            ("sessions", JValue.obj [("S1", JValue.obj [("userId", JValue.str "U")])])]))⟩
      = (⟨JValue.str "1.0.0", JValue.str "T0", JValue.obj [],
           JValue.obj [("S1", JValue.obj [("userId", JValue.str "U")])]⟩,
         ⟨some (some (JValue.obj [("workingDirectories", JValue.obj []),
            ("sessions", JValue.obj [("S1", JValue.obj [("userId", JValue.str "U")])])])),
          some (some (JValue.obj [("workingDirectories", JValue.obj []),
            ("sessions", JValue.obj [("S1", JValue.obj [("userId", JValue.str "U")])])]))⟩) ∧
    getField (JValue.obj [("S1", JValue.obj [("userId", JValue.str "U")])]) "S1"
      = some (JValue.obj [("userId", JValue.str "U")]) :=
  ⟨loadState_backup_promotion "T0" _ none _ _ rfl rfl rfl rfl, rfl⟩

/-- C6 counterexample: a primary file that parses to an object with no
`workingDirectories` field at all is nevertheless accepted by
`loadAndValidateFile` (the missing map is defaulted to `{}`), and
`loadState` returns the primary-derived snapshot without consulting the
valid backup and without touching the disk — refuting the claim that such
a primary is rejected in favour of the backup. -/
theorem load_missing_category_accepted_cx :
    (loadAndValidateFile "T0"
        (some (JValue.obj [("version", JValue.str "9"),
          ("sessions", JValue.obj [("S1", JValue.obj [])])]))).isSome = true ∧
    loadStateJ "T0"
        ⟨some (some (JValue.obj [("version", JValue.str "9"),
            ("sessions", JValue.obj [("S1", JValue.obj [])])])),
         some (some (JValue.obj [("version", JValue.str "7"),
            ("workingDirectories", JValue.obj []), ("sessions", JValue.obj [])]))⟩
      = (⟨JValue.str "9", JValue.str "T0", JValue.obj [],
           JValue.obj [("S1", JValue.obj [])]⟩,
         ⟨some (some (JValue.obj [("version", JValue.str "9"),
            ("sessions", JValue.obj [("S1", JValue.obj [])])])),
          some (some (JValue.obj [("version", JValue.str "7"),
            ("workingDirectories", JValue.obj []), ("sessions", JValue.obj [])]))⟩) ∧
    (loadAndValidateFile "T0"
        (some (JValue.obj [("version", JValue.str "7"),
          ("workingDirectories", JValue.obj []), ("sessions", JValue.obj [])]))).isSome = true :=
  ⟨rfl, rfl, rfl⟩

/-- C6 amended: `loadState` accepts a primary file that parses to a
truthy JSON value of JavaScript type object even when a category map is
missing; the missing map is defaulted to the empty object, the remaining
fields are taken from the primary (with their own defaults), and neither
the backup nor the disk is touched. -/
theorem load_missing_category_defaults (nowIso : String) (fs : JFS) (parsed : JValue)
    (hp : fs.primary = some (some parsed))
    (ht : jsTruthy parsed = true) (ho : typeofIsObject parsed = true)
    (hwd : getField parsed "workingDirectories" = none)
    (hss : typeofIsObject (fieldOr parsed "sessions" (JValue.obj [])) = true) :
    loadStateJ nowIso fs =
      ({ version := fieldOr parsed "version" (JValue.str "1.0.0"),
         lastUpdated := fieldOr parsed "lastUpdated" (JValue.str nowIso),
         workingDirectories := JValue.obj [],
         sessions := fieldOr parsed "sessions" (JValue.obj []) }, fs) := by
  have hwd0 : fieldOr parsed "workingDirectories" (JValue.obj []) = JValue.obj [] := by
    simp [fieldOr, hwd]
  have hobj : typeofIsObject (JValue.obj []) = true := rfl
  simp [loadStateJ, hp, loadAndValidateFile, ht, ho, hwd0, hss, hobj]

/-- Witness for C6 amended, at the counterexample's concrete input. -/
theorem load_missing_category_defaults_wit :
    loadStateJ "T0"
        ⟨some (some (JValue.obj [("version", JValue.str "9"),
            ("sessions", JValue.obj [("S1", JValue.obj [])])])), none⟩
      = (⟨fieldOr (JValue.obj [("version", JValue.str "9"),
            ("sessions", JValue.obj [("S1", JValue.obj [])])]) "version" (JValue.str "1.0.0"),
          fieldOr (JValue.obj [("version", JValue.str "9"),
            ("sessions", JValue.obj [("S1", JValue.obj [])])]) "lastUpdated" (JValue.str "T0"),
          JValue.obj [],
          fieldOr (JValue.obj [("version", JValue.str "9"),
            ("sessions", JValue.obj [("S1", JValue.obj [])])]) "sessions" (JValue.obj [])⟩,
         ⟨some (some (JValue.obj [("version", JValue.str "9"),
            ("sessions", JValue.obj [("S1", JValue.obj [])])])), none⟩) :=
  load_missing_category_defaults "T0" _ _ rfl rfl rfl rfl rfl

/-- C7: when any step of the write protocol fails (temp write, backup
copy, or rename), the error is caught — `performSave` and `forceSave`
return normally, being total functions of the model — and the primary
file still contains the last fully committed snapshot unchanged. -/
theorem performSave_failure_preserves_primary (nowIso ts : String)
    (outcome : WriteOutcome) (m : Manager) (s : BotState)
    (hp : m.fs.primary = some s) (hfail : outcome ≠ WriteOutcome.ok) :
    (performSave nowIso ts outcome m).fs.primary = some s ∧
    ∀ u : Option StateUpdate, (forceSave nowIso ts outcome u m).fs.primary = some s := by
  have key : ∀ m2 : Manager, m2.fs.primary = some s →
      (performSave nowIso ts outcome m2).fs.primary = some s := by
    intro m2 h2
    cases outcome with
    | ok => exact absurd rfl hfail
    | tempFail => simp [performSave, loadState, h2]
    | backupFail => simp [performSave, loadState, h2]
    | renameFail => simp [performSave, loadState, h2]
  refine ⟨key m hp, ?_⟩
  intro u
  cases u with
  | none =>
    unfold forceSave flushPendingUpdates
    by_cases hpend : m.pendingUpdates.isEmpty <;> simp [hpend, key m hp, hp]
  | some v =>
    unfold forceSave flushPendingUpdates scheduleAutoSave
    have hne : (m.pendingUpdates ++ [v]).isEmpty = false := by simp
    simp only [hne, Bool.false_eq_true, if_false]
    exact key _ hp

/-- Witness for C7: a failing backup copy with one pending fragment
leaves the committed empty snapshot on the primary path. -/
theorem performSave_failure_preserves_primary_wit :
    (performSave "T0" "T1" WriteOutcome.backupFail
        ⟨⟨some (getEmptyState "T0"), none, none⟩,
         [⟨none, some ⟨false, [("k", none)]⟩⟩], 0⟩).fs.primary
      = some (getEmptyState "T0") ∧
    ∀ u : Option StateUpdate,
      (forceSave "T0" "T1" WriteOutcome.backupFail u
          ⟨⟨some (getEmptyState "T0"), none, none⟩,
           [⟨none, some ⟨false, [("k", none)]⟩⟩], 0⟩).fs.primary
        = some (getEmptyState "T0") :=
  performSave_failure_preserves_primary "T0" "T1" WriteOutcome.backupFail _ _ rfl
    (by decide)

/-- C9: when the pending-fragment list is empty, a flush — whether from
the debounce timer (`flushPendingUpdates`) or from `forceSave` with no
fragment — performs no disk write at all: the manager, including the
on-disk snapshot with its `lastUpdated` timestamp and the write counter,
is returned unchanged. -/
theorem flush_empty_pending_noop (nowIso ts : String) (outcome : WriteOutcome)
    (m : Manager) (hpend : m.pendingUpdates = []) :
    flushPendingUpdates nowIso ts outcome m = m ∧
    forceSave nowIso ts outcome none m = m := by
  have h : m.pendingUpdates.isEmpty = true := by simp [hpend]
  constructor <;> simp [flushPendingUpdates, forceSave, h]

/-- Witness for C9 at a concrete manager state. -/
theorem flush_empty_pending_noop_wit :
    flushPendingUpdates "T0" "T1" WriteOutcome.ok
        ⟨⟨some (getEmptyState "T0"), none, none⟩, [], 0⟩
      = ⟨⟨some (getEmptyState "T0"), none, none⟩, [], 0⟩ ∧
    forceSave "T0" "T1" WriteOutcome.ok none
        ⟨⟨some (getEmptyState "T0"), none, none⟩, [], 0⟩
      = ⟨⟨some (getEmptyState "T0"), none, none⟩, [], 0⟩ :=
  flush_empty_pending_noop "T0" "T1" WriteOutcome.ok _ rfl

/-- C5 counterexample: the persisted keys are built with dash
separators, not colons, and a direct-message key is only produced when
the channel id starts with `D`: the session key for user `U`, channel
`C`, thread `T` is `U-C-T`, not `U:C:T`; the thread directory key is
`C-T`, not `C:T`; and for a non-`D` channel with a user id the directory
key is the channel id alone, not a channel-user pair. -/
theorem key_separator_cx :
    getSessionKey "U" "C" (some "T") = "U-C-T" ∧
    getSessionKey "U" "C" (some "T") ≠ "U:C:T" ∧
    getSessionKey "U" "C" none = "U-C-direct" ∧
    getConfigKey "C" (some "T") none = "C-T" ∧
    getConfigKey "C" (some "T") none ≠ "C:T" ∧
    getConfigKey "C" none (some "U") = "C" ∧
    getConfigKey "D1" none (some "U") = "D1-U" := by
  refine ⟨rfl, by decide, rfl, rfl, by decide, rfl, rfl⟩

/-- C5 amended: for nonempty identifiers, the directory key is the
channel id alone for a channel-wide default, `channelId-threadTs` (dash
separated) for a thread override, and `channelId-userId` for a
direct-message assignment — the latter only when the channel id starts
with `D`; the session key is `userId-channelId-threadTs` with the
literal `direct` in place of a missing thread. -/
theorem key_construction_dash (c t u : String) (ht : t ≠ "") (hu : u ≠ "") :
    getConfigKey c (some t) none = c ++ "-" ++ t ∧
    getConfigKey c (some t) (some u) = c ++ "-" ++ t ∧
    getConfigKey c none (some u) = (if startsWithD c then c ++ "-" ++ u else c) ∧
    getConfigKey c none none = c ∧
    getSessionKey u c (some t) = u ++ "-" ++ c ++ "-" ++ t ∧
    getSessionKey u c none = u ++ "-" ++ c ++ "-" ++ "direct" := by
  have htt : strTruthy (some t) = true := by simp [strTruthy, ht]
  have hut : strTruthy (some u) = true := by simp [strTruthy, hu]
  refine ⟨?_, ?_, ?_, rfl, ?_, rfl⟩
  · simp [getConfigKey, htt]
  · simp [getConfigKey, htt]
  · cases hD : startsWithD c <;> simp [getConfigKey, strTruthy, hut, hD, hu]
  · simp [getSessionKey, htt]

/-- Witness for C5 amended at concrete identifiers. -/
theorem key_construction_dash_wit :
    getConfigKey "D1" (some "T") none = "D1" ++ "-" ++ "T" ∧
    getConfigKey "D1" (some "T") (some "U") = "D1" ++ "-" ++ "T" ∧
    getConfigKey "D1" none (some "U")
      = (if startsWithD "D1" then "D1" ++ "-" ++ "U" else "D1") ∧
    getConfigKey "D1" none none = "D1" ∧
    getSessionKey "U" "D1" (some "T") = "U" ++ "-" ++ "D1" ++ "-" ++ "T" ∧
    getSessionKey "U" "D1" none = "U" ++ "-" ++ "D1" ++ "-" ++ "direct" :=
  key_construction_dash "D1" "T" "U" (by decide) (by decide)

/-- C1 counterexample: a marker-free fragment whose `workingDirectories`
map is present but empty does not leave the category unchanged — the
empty map trips the `Object.keys(...).length === 0` replace-all test and
wipes every directory record, so the unnamed key `k` loses its record. -/
theorem mergeUpdates_empty_dir_fragment_cx :
    (mergeUpdates
        ⟨"1.0.0", "T", [("k", some ⟨"C", none, none, "/a", "T1"⟩)], []⟩
        [⟨some ⟨false, []⟩, none⟩]).workingDirectories = [] ∧
    jmLookup (⟨"1.0.0", "T", [("k", some ⟨"C", none, none, "/a", "T1"⟩)], []⟩ :
        BotState).workingDirectories "k" = some (some ⟨"C", none, none, "/a", "T1"⟩) := by
  decide

/-- C1 amended: merging a marker-free fragment changes, per category,
only the keys the fragment names — a key bound (last) to a present value
is overwritten or created, a key bound to an empty/absent value is
deleted, and every unnamed key keeps its prior record, with `version`
and `lastUpdated` untouched — provided the fragment's
`workingDirectories` map is nonempty; an empty `workingDirectories` map
instead acts as a replace-all and clears that category (see the
counterexample), while an empty `sessions` map (`sE = []`) does leave
the session records unchanged. -/
theorem mergeUpdates_markerFree_pointwise (base : BotState)
    (wdE : JMap (Option SerializedWorkingDirectoryConfig))
    (sE : JMap (Option SerializedConversationSession))
    (hwd : wdE ≠ []) (k : String) :
    jmLookup (mergeUpdates base [⟨some ⟨false, wdE⟩, some ⟨false, sE⟩⟩]).workingDirectories k
      = mergeLookupSpec wdE k (jmLookup base.workingDirectories k) ∧
    jmLookup (mergeUpdates base [⟨some ⟨false, wdE⟩, some ⟨false, sE⟩⟩]).sessions k
      = mergeLookupSpec sE k (jmLookup base.sessions k) ∧
    (mergeUpdates base [⟨some ⟨false, wdE⟩, some ⟨false, sE⟩⟩]).version = base.version ∧
    (mergeUpdates base [⟨some ⟨false, wdE⟩, some ⟨false, sE⟩⟩]).lastUpdated = base.lastUpdated := by
  have hne : wdE.isEmpty = false := by
    cases wdE with
    | nil => simp at hwd
    | cons a l => rfl
  have hstep : mergeUpdates base [(⟨some ⟨false, wdE⟩, some ⟨false, sE⟩⟩ : StateUpdate)] =
      { base with workingDirectories := mergeEntries base.workingDirectories wdE,
                  sessions := mergeEntries base.sessions sE } := by
    simp [mergeUpdates, applyUpdate, hne]
  rw [hstep]
  exact ⟨jmLookup_mergeEntries_spec base.workingDirectories wdE k,
         jmLookup_mergeEntries_spec base.sessions sE k, rfl, rfl⟩

/-- Witness for C1 amended: the fragment deletes key `a` from the
directories and names nothing in the sessions, on an empty base. -/
theorem mergeUpdates_markerFree_pointwise_wit :
    ([("a", (none : Option SerializedWorkingDirectoryConfig))] ≠
        ([] : JMap (Option SerializedWorkingDirectoryConfig))) ∧
    (jmLookup (mergeUpdates (getEmptyState "T")
        [⟨some ⟨false, [("a", none)]⟩, some ⟨false, []⟩⟩]).workingDirectories "a"
      = mergeLookupSpec [("a", none)] "a" (jmLookup (getEmptyState "T").workingDirectories "a") ∧
    jmLookup (mergeUpdates (getEmptyState "T")
        [⟨some ⟨false, [("a", none)]⟩, some ⟨false, []⟩⟩]).sessions "a"
      = mergeLookupSpec [] "a" (jmLookup (getEmptyState "T").sessions "a") ∧
    (mergeUpdates (getEmptyState "T")
        [⟨some ⟨false, [("a", none)]⟩, some ⟨false, []⟩⟩]).version = (getEmptyState "T").version ∧
    (mergeUpdates (getEmptyState "T")
        [⟨some ⟨false, [("a", none)]⟩, some ⟨false, []⟩⟩]).lastUpdated
      = (getEmptyState "T").lastUpdated) :=
  ⟨by decide, mergeUpdates_markerFree_pointwise (getEmptyState "T") [("a", none)] []
      (by decide) "a"⟩

/-- C2: in a flush batch where a replace-all fragment for a category is
followed by an individual-key fragment for the same category, the merged
result for that category is the replace-all fragment's explicit entries
with the individual edit applied on top (`mergeStep` is exactly "apply
one entry": insert for a present value, delete for an empty one) — the
individual edit survives the sweep, for any base snapshot and any
earlier fragments of the batch, because fragments are applied strictly
in schedule order. -/
theorem mergeUpdates_sweep_then_edit (base : BotState) (pre : List StateUpdate)
    (eW : JMap (Option SerializedWorkingDirectoryConfig))
    (eS : JMap (Option SerializedConversationSession))
    (kW : String) (vW : Option SerializedWorkingDirectoryConfig)
    (kS : String) (vS : Option SerializedConversationSession) :
    (mergeUpdates base (pre ++
        [⟨some ⟨true, eW⟩, some ⟨true, eS⟩⟩,
         ⟨some ⟨false, [(kW, vW)]⟩, some ⟨false, [(kS, vS)]⟩⟩])).workingDirectories
      = mergeStep eW (kW, vW) ∧
    (mergeUpdates base (pre ++
        [⟨some ⟨true, eW⟩, some ⟨true, eS⟩⟩,
         ⟨some ⟨false, [(kW, vW)]⟩, some ⟨false, [(kS, vS)]⟩⟩])).sessions
      = mergeStep eS (kS, vS) := by
  rw [mergeUpdates_append]
  constructor <;> simp [mergeUpdates, applyUpdate, mergeEntries]

/-- C10: `cleanupOldSessions` schedules nothing exactly when every
session is strictly younger than `maxAge` (so no flush is triggered and
the disk is untouched); when it does schedule, applying the scheduled
replace-all fragment to any base snapshot leaves the directory records
unchanged and retains exactly the sessions with
`now - lastActivity < maxAge` — a session whose age equals `maxAge` is
removed, since the comparison is strict. -/
theorem cleanupOldSessions_spec (getTime : String → Int) (now maxAge : Int)
    (ss : List (String × SerializedConversationSession)) (base : BotState) :
    ((cleanupOldSessions getTime now maxAge ss).isNone
      = ss.all (fun kv => decide (now - getTime kv.2.lastActivity < maxAge))) ∧
    ((match cleanupOldSessions getTime now maxAge ss with
      | none => base
      | some u => applyUpdate base u).workingDirectories = base.workingDirectories) ∧
    ((match cleanupOldSessions getTime now maxAge ss with
      | none => base
      | some u => applyUpdate base u).sessions =
      if ss.all (fun kv => decide (now - getTime kv.2.lastActivity < maxAge)) then base.sessions
      else (ss.filter (fun kv => decide (now - getTime kv.2.lastActivity < maxAge))).map
            (fun kv => (kv.1, some kv.2))) := by
  by_cases hall : ss.all (fun kv => decide (now - getTime kv.2.lastActivity < maxAge)) = true
  · have hrem : (ss.filter
        (fun kv => ! decide (now - getTime kv.2.lastActivity < maxAge))).length = 0 := by
      rw [List.length_eq_zero, List.filter_eq_nil_iff]
      intro a ha
      have := List.all_eq_true.mp hall a ha
      simp [this]
    have hnone : cleanupOldSessions getTime now maxAge ss = none := by
      simp [cleanupOldSessions, hrem]
    simp [hnone, hall]
  · have hrem : 0 < (ss.filter
        (fun kv => ! decide (now - getTime kv.2.lastActivity < maxAge))).length := by
      by_contra hz
      push_neg at hz
      have h0 : (ss.filter
          (fun kv => ! decide (now - getTime kv.2.lastActivity < maxAge))).length = 0 :=
        Nat.le_zero.mp hz
      rw [List.length_eq_zero, List.filter_eq_nil_iff] at h0
      apply hall
      rw [List.all_eq_true]
      intro a ha
      simpa using h0 a ha
    have hsome : cleanupOldSessions getTime now maxAge ss =
        some { workingDirectories := none,
               sessions := some ⟨true,
                 (ss.filter (fun kv => decide (now - getTime kv.2.lastActivity < maxAge))).map
                   (fun kv => (kv.1, some kv.2))⟩ } := by
      simp [cleanupOldSessions, hrem]
    rw [hsome]
    refine ⟨by simp [hall], rfl, ?_⟩
    simp [applyUpdate, hall]

theorem foldl_scheduleAutoSave (us : List StateUpdate) (m : Manager) :
    us.foldl scheduleAutoSave m = { m with pendingUpdates := m.pendingUpdates ++ us } := by
  induction us generalizing m with
  | nil => simp
  | cons u rest ih =>
    rw [List.foldl_cons, ih]
    simp [scheduleAutoSave]

/-- C8: a nonempty sequence of `scheduleAutoSave` calls inside the
debounce window performs no disk write at all (the disk is untouched and
the write counter stays at zero), and the one `forceSave` that follows
performs exactly one write to the primary file, whose content is the
base snapshot with all the scheduled fragments folded in, in schedule
order (with the flush's fresh `lastUpdated` stamp). -/
theorem batched_schedule_single_write (s0 : BotState) (bk tp : Option BotState)
    (us : List StateUpdate) (nowIso ts : String) (hus : us ≠ []) :
    (us.foldl scheduleAutoSave ⟨⟨some s0, bk, tp⟩, [], 0⟩).primaryWrites = 0 ∧
    (us.foldl scheduleAutoSave ⟨⟨some s0, bk, tp⟩, [], 0⟩).fs = ⟨some s0, bk, tp⟩ ∧
    (forceSave nowIso ts WriteOutcome.ok none
        (us.foldl scheduleAutoSave ⟨⟨some s0, bk, tp⟩, [], 0⟩)).primaryWrites = 1 ∧
    (forceSave nowIso ts WriteOutcome.ok none
        (us.foldl scheduleAutoSave ⟨⟨some s0, bk, tp⟩, [], 0⟩)).fs.primary
      = some { mergeUpdates s0 us with lastUpdated := ts } ∧
    (forceSave nowIso ts WriteOutcome.ok none
        (us.foldl scheduleAutoSave ⟨⟨some s0, bk, tp⟩, [], 0⟩)).pendingUpdates = [] := by
  rw [foldl_scheduleAutoSave]
  have hne : us.isEmpty = false := by
    cases us with
    | nil => simp at hus
    | cons a l => rfl
  refine ⟨rfl, rfl, ?_, ?_, ?_⟩ <;>
    simp [forceSave, flushPendingUpdates, performSave, loadState, hne]

/-- Witness for C8 with one scheduled fragment. -/
theorem batched_schedule_single_write_wit :
    (([⟨none, some ⟨false, [("k", none)]⟩⟩] : List StateUpdate).foldl scheduleAutoSave
        ⟨⟨some (getEmptyState "T0"), none, none⟩, [], 0⟩).primaryWrites = 0 ∧
    (([⟨none, some ⟨false, [("k", none)]⟩⟩] : List StateUpdate).foldl scheduleAutoSave
        ⟨⟨some (getEmptyState "T0"), none, none⟩, [], 0⟩).fs
      = ⟨some (getEmptyState "T0"), none, none⟩ ∧
    (forceSave "T0" "T1" WriteOutcome.ok none
        (([⟨none, some ⟨false, [("k", none)]⟩⟩] : List StateUpdate).foldl scheduleAutoSave
          ⟨⟨some (getEmptyState "T0"), none, none⟩, [], 0⟩)).primaryWrites = 1 ∧
    (forceSave "T0" "T1" WriteOutcome.ok none
        (([⟨none, some ⟨false, [("k", none)]⟩⟩] : List StateUpdate).foldl scheduleAutoSave
          ⟨⟨some (getEmptyState "T0"), none, none⟩, [], 0⟩)).fs.primary
      = some { mergeUpdates (getEmptyState "T0") [⟨none, some ⟨false, [("k", none)]⟩⟩] with
               lastUpdated := "T1" } ∧
    (forceSave "T0" "T1" WriteOutcome.ok none
        (([⟨none, some ⟨false, [("k", none)]⟩⟩] : List StateUpdate).foldl scheduleAutoSave
          ⟨⟨some (getEmptyState "T0"), none, none⟩, [], 0⟩)).pendingUpdates = [] :=
  batched_schedule_single_write (getEmptyState "T0") none none
    [⟨none, some ⟨false, [("k", none)]⟩⟩] "T0" "T1" (by decide)

theorem applyUpdate_records_congr (s1 s2 : BotState) (u : StateUpdate)
    (hw : s1.workingDirectories = s2.workingDirectories)
    (hs : s1.sessions = s2.sessions) :
    (applyUpdate s1 u).workingDirectories = (applyUpdate s2 u).workingDirectories ∧
    (applyUpdate s1 u).sessions = (applyUpdate s2 u).sessions := by
  obtain ⟨ow, os⟩ := u
  cases ow with
  | none =>
    cases os with
    | none => exact ⟨hw, hs⟩
    | some cs => by_cases hr : cs.replaceAll <;> simp [applyUpdate, hr, hw, hs]
  | some cw =>
    cases os with
    | none =>
      by_cases hc : (cw.entries.isEmpty || cw.replaceAll) = true <;>
        simp [applyUpdate, hc, hw, hs]
    | some cs =>
      by_cases hc : (cw.entries.isEmpty || cw.replaceAll) = true <;>
        by_cases hr : cs.replaceAll <;> simp [applyUpdate, hc, hr, hw, hs]

theorem mergeUpdates_records_congr (l : List StateUpdate) (s1 s2 : BotState)
    (hw : s1.workingDirectories = s2.workingDirectories)
    (hs : s1.sessions = s2.sessions) :
    (mergeUpdates s1 l).workingDirectories = (mergeUpdates s2 l).workingDirectories ∧
    (mergeUpdates s1 l).sessions = (mergeUpdates s2 l).sessions := by
  induction l generalizing s1 s2 with
  | nil => exact ⟨hw, hs⟩
  | cons u rest ih =>
    have h1 := applyUpdate_records_congr s1 s2 u hw hs
    exact ih (applyUpdate s1 u) (applyUpdate s2 u) h1.1 h1.2

theorem runCycles_aux (nowIso : String) (cs : List FlushCycle) :
    ∀ (m : Manager) (s base : BotState),
      m.pendingUpdates = [] → m.fs.primary = some s →
      s.workingDirectories = base.workingDirectories → s.sessions = base.sessions →
      (runCycles nowIso m cs).pendingUpdates = [] ∧
      ∃ sf, (runCycles nowIso m cs).fs.primary = some sf ∧
        sf.workingDirectories = (mergeUpdates base (goodFragments cs)).workingDirectories ∧
        sf.sessions = (mergeUpdates base (goodFragments cs)).sessions := by
  induction cs with
  | nil =>
    intro m s base hp hprim hw hs
    exact ⟨hp, s, hprim, hw, hs⟩
  | cons c rest ih =>
    intro m s base hp hprim hw hs
    have hrunEq : runCycles nowIso m (c :: rest)
        = runCycles nowIso (runCycle nowIso m c) rest := by
      simp [runCycles]
    cases hfrag : c.fragments with
    | nil =>
      have hrc : runCycle nowIso m c = m := by
        simp [runCycle, hfrag, flushPendingUpdates, hp]
      have hgf : goodFragments (c :: rest) = goodFragments rest := by
        simp [goodFragments, hfrag]
      rw [hrunEq, hrc, hgf]
      exact ih m s base hp hprim hw hs
    | cons u us =>
      cases hoc : c.outcome with
      | ok =>
        have hpend2 : (runCycle nowIso m c).pendingUpdates = [] := by
          simp [runCycle, foldl_scheduleAutoSave, scheduleAutoSave, hp, hfrag,
                flushPendingUpdates, performSave, loadState, hprim, hoc]
        have hprim2 : (runCycle nowIso m c).fs.primary
            = some { mergeUpdates s c.fragments with lastUpdated := c.ts } := by
          simp [runCycle, foldl_scheduleAutoSave, scheduleAutoSave, hp, hfrag,
                flushPendingUpdates, performSave, loadState, hprim, hoc]
        have hcong := mergeUpdates_records_congr c.fragments s base hw hs
        obtain ⟨hpendF, sf, hsfp, hsfw, hsfs⟩ :=
          ih (runCycle nowIso m c) { mergeUpdates s c.fragments with lastUpdated := c.ts }
            (mergeUpdates base c.fragments) hpend2 hprim2 hcong.1 hcong.2
        have hgf : goodFragments (c :: rest) = c.fragments ++ goodFragments rest := by
          simp [goodFragments, hoc]
        refine ⟨?_, sf, ?_, ?_, ?_⟩
        · rw [hrunEq]; exact hpendF
        · rw [hrunEq]; exact hsfp
        · rw [hgf, mergeUpdates_append]; exact hsfw
        · rw [hgf, mergeUpdates_append]; exact hsfs
      | tempFail =>
        have hpend2 : (runCycle nowIso m c).pendingUpdates = [] := by
          simp [runCycle, foldl_scheduleAutoSave, scheduleAutoSave, hp, hfrag,
                flushPendingUpdates, performSave, loadState, hprim, hoc]
        have hprim2 : (runCycle nowIso m c).fs.primary = some s := by
          simp [runCycle, foldl_scheduleAutoSave, scheduleAutoSave, hp, hfrag,
                flushPendingUpdates, performSave, loadState, hprim, hoc]
        obtain ⟨hpendF, sf, hsfp, hsfw, hsfs⟩ :=
          ih (runCycle nowIso m c) s base hpend2 hprim2 hw hs
        have hgf : goodFragments (c :: rest) = goodFragments rest := by
          simp [goodFragments, hoc]
        refine ⟨?_, sf, ?_, ?_, ?_⟩
        · rw [hrunEq]; exact hpendF
        · rw [hrunEq]; exact hsfp
        · rw [hgf]; exact hsfw
        · rw [hgf]; exact hsfs
      | backupFail =>
        have hpend2 : (runCycle nowIso m c).pendingUpdates = [] := by
          simp [runCycle, foldl_scheduleAutoSave, scheduleAutoSave, hp, hfrag,
                flushPendingUpdates, performSave, loadState, hprim, hoc]
        have hprim2 : (runCycle nowIso m c).fs.primary = some s := by
          simp [runCycle, foldl_scheduleAutoSave, scheduleAutoSave, hp, hfrag,
                flushPendingUpdates, performSave, loadState, hprim, hoc]
        obtain ⟨hpendF, sf, hsfp, hsfw, hsfs⟩ :=
          ih (runCycle nowIso m c) s base hpend2 hprim2 hw hs
        have hgf : goodFragments (c :: rest) = goodFragments rest := by
          simp [goodFragments, hoc]
        refine ⟨?_, sf, ?_, ?_, ?_⟩
        · rw [hrunEq]; exact hpendF
        · rw [hrunEq]; exact hsfp
        · rw [hgf]; exact hsfw
        · rw [hgf]; exact hsfs
      | renameFail =>
        have hpend2 : (runCycle nowIso m c).pendingUpdates = [] := by
          simp [runCycle, foldl_scheduleAutoSave, scheduleAutoSave, hp, hfrag,
                flushPendingUpdates, performSave, loadState, hprim, hoc]
        have hprim2 : (runCycle nowIso m c).fs.primary = some s := by
          simp [runCycle, foldl_scheduleAutoSave, scheduleAutoSave, hp, hfrag,
                flushPendingUpdates, performSave, loadState, hprim, hoc]
        obtain ⟨hpendF, sf, hsfp, hsfw, hsfs⟩ :=
          ih (runCycle nowIso m c) s base hpend2 hprim2 hw hs
        have hgf : goodFragments (c :: rest) = goodFragments rest := by
          simp [goodFragments, hoc]
        refine ⟨?_, sf, ?_, ?_, ?_⟩
        · rw [hrunEq]; exact hpendF
        · rw [hrunEq]; exact hsfp
        · rw [hgf]; exact hsfw
        · rw [hgf]; exact hsfs

/-- C3 counterexample: starting from an empty committed snapshot, a
fragment recording session `A` is scheduled and its flush's disk write
fails; a fragment recording session `B` is then scheduled and its flush
succeeds. The persisted snapshot ends up containing only `B`: the first
fragment was consumed (the pending list is cleared before the write is
attempted) and never folded into the persisted snapshot, although
folding both fragments would have kept `A` (second conjunct) — refuting
the claim that every scheduled fragment is eventually folded in even
across cycles whose disk write fails. -/
theorem schedule_lost_on_failed_write_cx :
    (runCycles "T0" ⟨⟨some (getEmptyState "T0"), none, none⟩, [], 0⟩
        [⟨[⟨none, some ⟨false, [("A", some ⟨"U", "C", none, none, true, "L"⟩)]⟩⟩],
          WriteOutcome.tempFail, "t1"⟩,
         ⟨[⟨none, some ⟨false, [("B", some ⟨"U", "C", none, none, true, "L"⟩)]⟩⟩],
          WriteOutcome.ok, "t2"⟩]).fs.primary
      = some ⟨"1.0.0", "t2", [], [("B", some ⟨"U", "C", none, none, true, "L"⟩)]⟩ ∧
    jmLookup (mergeUpdates (getEmptyState "T0")
        [⟨none, some ⟨false, [("A", some ⟨"U", "C", none, none, true, "L"⟩)]⟩⟩,
         ⟨none, some ⟨false, [("B", some ⟨"U", "C", none, none, true, "L"⟩)]⟩⟩]).sessions "A"
      = some (some ⟨"U", "C", none, none, true, "L"⟩) := by
  decide

/-- C3 amended: fragments are folded into the persisted snapshot in
exactly the order `scheduleAutoSave` was called, across flush cycles,
because each flush starts from the previously persisted result — but
only the fragments of cycles whose disk write succeeds: a flush whose
write fails clears the fragments it had consumed without persisting
them, so the final persisted records are those of the base snapshot with
the successful cycles' fragments folded in, in schedule order, and no
flush ever leaves a fragment pending. -/
theorem runCycles_good_fragments_order (nowIso : String) (s0 : BotState)
    (bk tp : Option BotState) (cs : List FlushCycle) :
    (runCycles nowIso ⟨⟨some s0, bk, tp⟩, [], 0⟩ cs).pendingUpdates = [] ∧
    Option.map BotState.workingDirectories
        (runCycles nowIso ⟨⟨some s0, bk, tp⟩, [], 0⟩ cs).fs.primary
      = some (mergeUpdates s0 (goodFragments cs)).workingDirectories ∧
    Option.map BotState.sessions
        (runCycles nowIso ⟨⟨some s0, bk, tp⟩, [], 0⟩ cs).fs.primary
      = some (mergeUpdates s0 (goodFragments cs)).sessions := by
  obtain ⟨hpend, sf, hsfp, hsfw, hsfs⟩ :=
    runCycles_aux nowIso cs ⟨⟨some s0, bk, tp⟩, [], 0⟩ s0 s0 rfl rfl rfl rfl
  refine ⟨hpend, ?_, ?_⟩
  · rw [hsfp]
    simpa using hsfw
  · rw [hsfp]
    simpa using hsfs
